import Mathlib

/-!
Verification of the knowledge-tracing core of `learnpathai`.

The definitions below are a shallow embedding of
`src/ai-service/bkt_irt_hybrid.py` (the `BKTIRTHybrid` model with its
`UserState` / `ConceptParams` / `MasteryUpdate` data classes) and of
`src/ai-service/evaluation.py` (`KTEvaluator`).  Python floats are modelled
as elements of a linear ordered field (`ℚ` for the purely rational
arithmetic, `ℝ` where `exp`/`sqrt` appear); Python dicts are modelled as
association lists with insert-or-update (`upsert`) semantics, matching the
insertion-order behaviour of Python dict assignment.
-/

namespace LearnPath

/-- `np.clip(x, lo, hi)` : clamp `x` into `[lo, hi]`. -/
def clip {α : Type} [LinearOrder α] (x lo hi : α) : α :=
  min (max x lo) hi

/-- Python dict assignment `d[k] = v` on an association list: replace the
first binding of `k` in place, else append at the end. -/
def upsert {α : Type} (k : String) (v : α) : List (String × α) → List (String × α)
  | [] => [(k, v)]
  | (k', v') :: rest => if k' = k then (k, v) :: rest else (k', v') :: upsert k v rest

/-- `ConceptParams` dataclass of `bkt_irt_hybrid.py` (per-concept BKT/IRT
parameters), with the scalar type abstracted over the field used to model
Python floats. -/
structure ConceptParams (α : Type) [LinearOrderedField α] where
  concept_id : String
  beta : α := 0
  slip : α := 1/10
  guess : α := 2/10
  learn : α := 3/10
  transit : α := 1/10
  discrimination : α := 17/10

section Params

variable {α : Type} [LinearOrderedField α]

/-- `BKTIRTHybrid._calculate_likelihood`: marginal probability of the
observed answer under the current mastery estimate. -/
def calculateLikelihood (correct : Bool) (mastery : α) (params : ConceptParams α) : α :=
  if correct then
    mastery * (1 - params.slip) + (1 - mastery) * params.guess
  else
    mastery * params.slip + (1 - mastery) * (1 - params.guess)

/-- `BKTIRTHybrid._bayesian_update`: two-state Bayes filter with a
zero-denominator guard and clamping to `[0.01, 0.99]`. -/
def bayesianUpdate [DecidableEq α] (prior likelihood : α) : α :=
  let numerator := prior * likelihood
  let denominator := prior * likelihood + (1 - prior) * (1 - likelihood)
  if denominator = 0 then prior
  else clip (numerator / denominator) (1/100) (99/100)

/-- `BKTIRTHybrid._apply_learning_forgetting`: learning boost on correct
answers only (no penalty on incorrect), clamped to `[0.01, 0.99]`. -/
def applyLearningForgetting (mastery : α) (correct : Bool) (learn_rate time_spent : α) : α :=
  let mastery' :=
    if correct then
      let learning_potential := 1 - mastery
      let time_factor := min (time_spent / 30) 1
      let boost := learn_rate * learning_potential * time_factor * (1/10)
      mastery + boost
    else mastery
  clip mastery' (1/100) (99/100)

/-- `BKTIRTHybrid._calculate_confidence`: weighted combination of change-,
time- and boundary-based confidence, clamped to `[0.1, 0.95]`. -/
def calculateConfidence (prior posterior time_spent : α) : α :=
  let change := |posterior - prior|
  let change_confidence := 1 - change
  let time_confidence := min (time_spent / 60) 1
  let boundary_distance := min posterior (1 - posterior) * 2
  let confidence := (4/10) * change_confidence + (3/10) * time_confidence
    + (3/10) * boundary_distance
  clip confidence (1/10) (95/100)

/-- Steps 3, 4 and 7 of `BKTIRTHybrid.update_mastery`: likelihood, then
Bayesian update, then learning/forgetting, for a fixed prior and concept
parameters.  This is the full mastery-update chain of the model. -/
def updateChain [DecidableEq α] (prior : α) (params : ConceptParams α)
    (correct : Bool) (time_spent : α) : α :=
  applyLearningForgetting
    (bayesianUpdate prior (calculateLikelihood correct prior params))
    correct params.learn time_spent

end Params

section ClipLemmas

variable {α : Type} [LinearOrderedField α]

lemma clip_le_hi (x lo hi : α) : clip x lo hi ≤ hi := min_le_right _ _

lemma lo_le_clip (x : α) {lo hi : α} (h : lo ≤ hi) : lo ≤ clip x lo hi :=
  le_min (le_max_right _ _) h

lemma clip_mono {x y : α} (lo hi : α) (h : x ≤ y) : clip x lo hi ≤ clip y lo hi :=
  min_le_min (max_le_max h le_rfl) le_rfl

lemma clip_of_mem {x lo hi : α} (h1 : lo ≤ x) (h2 : x ≤ hi) : clip x lo hi = x := by
  unfold clip
  rw [max_eq_left h1, min_eq_left h2]

end ClipLemmas

section BayesLemmas

variable {α : Type} [LinearOrderedField α]

/-- With prior in `[0.01, 0.99]` and likelihood in `[0, 1]`, the Bayes
denominator is at least `0.01`. -/
lemma bayes_den_lb {prior likelihood : α}
    (hp1 : 1/100 ≤ prior) (hp2 : prior ≤ 99/100)
    (hl1 : 0 ≤ likelihood) (hl2 : likelihood ≤ 1) :
    (1:α)/100 ≤ prior * likelihood + (1 - prior) * (1 - likelihood) := by
  nlinarith [mul_nonneg (sub_nonneg.mpr hl2) (sub_nonneg.mpr hp1),
    mul_nonneg hl1 (sub_nonneg.mpr hp1)]

/-- Under the same bounds the guard branch is skipped and the result is the
clamped quotient. -/
lemma bayesianUpdate_eq_clip [DecidableEq α] {prior likelihood : α}
    (hp1 : 1/100 ≤ prior) (hp2 : prior ≤ 99/100)
    (hl1 : 0 ≤ likelihood) (hl2 : likelihood ≤ 1) :
    bayesianUpdate prior likelihood =
      clip ((prior * likelihood) /
        (prior * likelihood + (1 - prior) * (1 - likelihood))) (1/100) (99/100) := by
  have hden := bayes_den_lb hp1 hp2 hl1 hl2
  have hne : prior * likelihood + (1 - prior) * (1 - likelihood) ≠ 0 := by positivity
  simp only [bayesianUpdate, hne, if_false]

/-- The Bayesian update (guard skipped) is monotone in the likelihood. -/
lemma bayesianUpdate_mono [DecidableEq α] {prior l1 l2 : α}
    (hp1 : 1/100 ≤ prior) (hp2 : prior ≤ 99/100)
    (h1 : 0 ≤ l1) (h12 : l1 ≤ l2) (h2 : l2 ≤ 1) :
    bayesianUpdate prior l1 ≤ bayesianUpdate prior l2 := by
  rw [bayesianUpdate_eq_clip hp1 hp2 h1 (le_trans h12 h2),
    bayesianUpdate_eq_clip hp1 hp2 (le_trans h1 h12) h2]
  apply clip_mono
  have hd1 : (0:α) < prior * l1 + (1 - prior) * (1 - l1) :=
    lt_of_lt_of_le (by norm_num) (bayes_den_lb hp1 hp2 h1 (le_trans h12 h2))
  have hd2 : (0:α) < prior * l2 + (1 - prior) * (1 - l2) :=
    lt_of_lt_of_le (by norm_num) (bayes_den_lb hp1 hp2 (le_trans h1 h12) h2)
  rw [div_le_div_iff₀ hd1 hd2]
  have hpp : (0:α) ≤ prior := le_trans (by norm_num) hp1
  have hpq : (0:α) ≤ 1 - prior := by linarith
  nlinarith [mul_nonneg (mul_nonneg hpp hpq) (sub_nonneg.mpr h12)]

end BayesLemmas

/-- Evaluation helper: the Bayesian update at concrete rational inputs whose
clamped quotient stays inside `[0.01, 0.99]`. -/
lemma bayesianUpdate_rat_eval {p l v : ℚ}
    (hp1 : 1/100 ≤ p) (hp2 : p ≤ 99/100) (hl1 : 0 ≤ l) (hl2 : l ≤ 1)
    (hval : p * l / (p * l + (1 - p) * (1 - l)) = v)
    (hv1 : 1/100 ≤ v) (hv2 : v ≤ 99/100) :
    bayesianUpdate p l = v := by
  rw [bayesianUpdate_eq_clip hp1 hp2 hl1 hl2, hval, clip_of_mem hv1 hv2]

/-- Evaluation helper: learning/forgetting on a correct answer at concrete
rational inputs whose boosted value stays inside `[0.01, 0.99]`. -/
lemma applyLF_true_eval {m lr t v : ℚ}
    (hval : m + lr * (1 - m) * min (t / 30) 1 * (1/10) = v)
    (hv1 : 1/100 ≤ v) (hv2 : v ≤ 99/100) :
    applyLearningForgetting m true lr t = v := by
  have h : applyLearningForgetting m true lr t
      = clip (m + lr * (1 - m) * min (t / 30) 1 * (1/10)) (1/100) (99/100) := rfl
  rw [h, hval, clip_of_mem hv1 hv2]

/-- C6 -- For prior in `[0.01, 0.99]` and likelihood in `[0, 1]` the Bayes
denominator is strictly positive, the zero-denominator guard branch is
unreachable (the function returns the clamped quotient), and the result
lies in `[0.01, 0.99]`. -/
theorem bayes_guard_unreachable (prior likelihood : ℚ)
    (hp1 : 1/100 ≤ prior) (hp2 : prior ≤ 99/100)
    (hl1 : 0 ≤ likelihood) (hl2 : likelihood ≤ 1) :
    0 < prior * likelihood + (1 - prior) * (1 - likelihood) ∧
    bayesianUpdate prior likelihood =
      clip ((prior * likelihood) /
        (prior * likelihood + (1 - prior) * (1 - likelihood))) (1/100) (99/100) ∧
    1/100 ≤ bayesianUpdate prior likelihood ∧
    bayesianUpdate prior likelihood ≤ 99/100 := by
  have hden := bayes_den_lb hp1 hp2 hl1 hl2
  have heq := bayesianUpdate_eq_clip hp1 hp2 hl1 hl2
  refine ⟨lt_of_lt_of_le (by norm_num) hden, heq, ?_, ?_⟩
  · rw [heq]; exact lo_le_clip _ (by norm_num)
  · rw [heq]; exact clip_le_hi _ _ _

/-- Witness for `bayes_guard_unreachable` at prior `0.3`, likelihood `0.41`. -/
theorem bayes_guard_unreachable_witness :
    0 < (3:ℚ)/10 * (41/100) + (1 - 3/10) * (1 - 41/100) ∧
    1/100 ≤ bayesianUpdate ((3:ℚ)/10) (41/100) := by
  have h := bayes_guard_unreachable (3/10) (41/100)
    (by norm_num) (by norm_num) (by norm_num) (by norm_num)
  exact ⟨h.1, h.2.2.1⟩

/-- C4 -- For mastery in `[0.01, 0.99]`, any learn rate and any time spent,
`_apply_learning_forgetting` with `correct = False` returns its input
mastery unchanged. -/
theorem applyLearningForgetting_incorrect_id (mastery learn_rate time_spent : ℚ)
    (h1 : 1/100 ≤ mastery) (h2 : mastery ≤ 99/100) :
    applyLearningForgetting mastery false learn_rate time_spent = mastery := by
  simp only [applyLearningForgetting, Bool.false_eq_true, if_false]
  exact clip_of_mem h1 h2

/-- Witness for `applyLearningForgetting_incorrect_id` at mastery `0.5`,
learn rate `0.7`, time spent `-2`. -/
theorem applyLearningForgetting_incorrect_id_witness :
    (1:ℚ)/100 ≤ 1/2 ∧ (1:ℚ)/2 ≤ 99/100 ∧
    applyLearningForgetting ((1:ℚ)/2) false (7/10) (-2) = 1/2 :=
  ⟨by norm_num, by norm_num,
    applyLearningForgetting_incorrect_id (1/2) (7/10) (-2) (by norm_num) (by norm_num)⟩

/-- C1 counterexample -- with prior `0.3` and the default concept parameters
(slip `0.1`, guess `0.2`, learn `0.3`) and time spent 30, the full update
chain gives a strictly SMALLER posterior for a correct answer
(`13539/53600 ≈ 0.2526`) than for an incorrect one (`177/464 ≈ 0.3815`):
the correct-answer likelihood `0.41` is below the incorrect-answer
likelihood `0.59`, and the Bayes step is monotone in the likelihood. -/
theorem updateChain_correct_lt_incorrect :
    updateChain ((3:ℚ)/10) { concept_id := "c" } true 30 <
      updateChain ((3:ℚ)/10) { concept_id := "c" } false 30 := by
  have hLc : calculateLikelihood true ((3:ℚ)/10) { concept_id := "c" } = 41/100 := by
    norm_num [calculateLikelihood]
  have hLinc : calculateLikelihood false ((3:ℚ)/10) { concept_id := "c" } = 59/100 := by
    norm_num [calculateLikelihood]
  have hbc : bayesianUpdate ((3:ℚ)/10) (41/100) = 123/536 :=
    bayesianUpdate_rat_eval (by norm_num) (by norm_num) (by norm_num) (by norm_num)
      (by norm_num) (by norm_num) (by norm_num)
  have hbinc : bayesianUpdate ((3:ℚ)/10) (59/100) = 177/464 :=
    bayesianUpdate_rat_eval (by norm_num) (by norm_num) (by norm_num) (by norm_num)
      (by norm_num) (by norm_num) (by norm_num)
  have hlearn : ConceptParams.learn ({ concept_id := "c" } : ConceptParams ℚ) = 3/10 := rfl
  unfold updateChain
  rw [hLc, hLinc, hbc, hbinc, hlearn]
  have hc : applyLearningForgetting ((123:ℚ)/536) true (3/10) 30 = 13539/53600 :=
    applyLF_true_eval (by norm_num) (by norm_num) (by norm_num)
  have hinc : applyLearningForgetting ((177:ℚ)/464) false (3/10) 30 = 177/464 := by
    simp only [applyLearningForgetting, Bool.false_eq_true, if_false]
    exact clip_of_mem (by norm_num) (by norm_num)
  rw [hc, hinc]
  norm_num

/-- C1 amended -- for prior in `[0.01, 0.99]`, slip and guess in `(0, 1)`,
learn rate `≥ 0` and time spent `≥ 0`, IF the correct-answer likelihood is
at least the incorrect-answer likelihood (equivalently
`(1-prior)*(1-2*guess) ≤ prior*(1-2*slip)`), THEN the full update chain for
a correct answer produces a posterior at least that for an incorrect
answer. -/
theorem updateChain_monotone_of_likelihood_order (prior : ℚ) (params : ConceptParams ℚ)
    (time_spent : ℚ)
    (hp1 : 1/100 ≤ prior) (hp2 : prior ≤ 99/100)
    (hs1 : 0 < params.slip) (hs2 : params.slip < 1)
    (hg1 : 0 < params.guess) (hg2 : params.guess < 1)
    (hlr : 0 ≤ params.learn) (ht : 0 ≤ time_spent)
    (hcond : (1 - prior) * (1 - 2 * params.guess) ≤ prior * (1 - 2 * params.slip)) :
    updateChain prior params false time_spent ≤ updateChain prior params true time_spent := by
  set s := params.slip with hs
  set g := params.guess with hg
  have hp0 : (0:ℚ) ≤ prior := le_trans (by norm_num) hp1
  have hp1' : prior ≤ 1 := le_trans hp2 (by norm_num)
  have hLc_def : calculateLikelihood true prior params = prior * (1 - s) + (1 - prior) * g := rfl
  have hLi_def : calculateLikelihood false prior params = prior * s + (1 - prior) * (1 - g) := rfl
  have hLc1 : 0 ≤ prior * (1 - s) + (1 - prior) * g := by nlinarith
  have hLc2 : prior * (1 - s) + (1 - prior) * g ≤ 1 := by nlinarith
  have hLi1 : 0 ≤ prior * s + (1 - prior) * (1 - g) := by nlinarith
  have hLi2 : prior * s + (1 - prior) * (1 - g) ≤ 1 := by nlinarith
  have hord : prior * s + (1 - prior) * (1 - g) ≤ prior * (1 - s) + (1 - prior) * g := by
    nlinarith
  have hmono : bayesianUpdate prior (prior * s + (1 - prior) * (1 - g))
      ≤ bayesianUpdate prior (prior * (1 - s) + (1 - prior) * g) :=
    bayesianUpdate_mono hp1 hp2 hLi1 hord hLc2
  have hbc_mem :
      1/100 ≤ bayesianUpdate prior (prior * (1 - s) + (1 - prior) * g) ∧
      bayesianUpdate prior (prior * (1 - s) + (1 - prior) * g) ≤ 99/100 := by
    rw [bayesianUpdate_eq_clip hp1 hp2 hLc1 hLc2]
    exact ⟨lo_le_clip _ (by norm_num), clip_le_hi _ _ _⟩
  have hbi_mem :
      1/100 ≤ bayesianUpdate prior (prior * s + (1 - prior) * (1 - g)) ∧
      bayesianUpdate prior (prior * s + (1 - prior) * (1 - g)) ≤ 99/100 := by
    rw [bayesianUpdate_eq_clip hp1 hp2 hLi1 hLi2]
    exact ⟨lo_le_clip _ (by norm_num), clip_le_hi _ _ _⟩
  set bc := bayesianUpdate prior (prior * (1 - s) + (1 - prior) * g) with hbc
  set bi := bayesianUpdate prior (prior * s + (1 - prior) * (1 - g)) with hbi
  have hchainT : updateChain prior params true time_spent
      = clip (bc + params.learn * (1 - bc) * min (time_spent / 30) 1 * (1/10))
          (1/100) (99/100) := rfl
  have hchainF : updateChain prior params false time_spent = clip bi (1/100) (99/100) := rfl
  rw [hchainT, hchainF, clip_of_mem hbi_mem.1 hbi_mem.2]
  have hboost : 0 ≤ params.learn * (1 - bc) * min (time_spent / 30) 1 * (1/10) := by
    have h1 : (0:ℚ) ≤ 1 - bc := by linarith [hbc_mem.2]
    have h2 : (0:ℚ) ≤ min (time_spent / 30) 1 :=
      le_min (div_nonneg ht (by norm_num)) (by norm_num)
    exact mul_nonneg (mul_nonneg (mul_nonneg hlr h1) h2) (by norm_num)
  calc bi ≤ bc := hmono
    _ = clip bc (1/100) (99/100) := (clip_of_mem hbc_mem.1 hbc_mem.2).symm
    _ ≤ clip (bc + params.learn * (1 - bc) * min (time_spent / 30) 1 * (1/10))
          (1/100) (99/100) := clip_mono _ _ (by linarith)

/-- Witness for `updateChain_monotone_of_likelihood_order` at prior `0.5`,
slip `0.1`, guess `0.2`, learn `0.3`, time 30. -/
theorem updateChain_monotone_witness :
    ((1:ℚ)/100 ≤ 1/2 ∧ (1:ℚ)/2 ≤ 99/100 ∧ (0:ℚ) < 1/10 ∧ (1:ℚ)/10 < 1 ∧
      (0:ℚ) < 2/10 ∧ (2:ℚ)/10 < 1 ∧ (0:ℚ) ≤ 3/10 ∧ (0:ℚ) ≤ 30 ∧
      (1 - (1:ℚ)/2) * (1 - 2 * (2/10)) ≤ (1/2) * (1 - 2 * (1/10))) ∧
    updateChain ((1:ℚ)/2) { concept_id := "c" } false 30 ≤
      updateChain ((1:ℚ)/2) { concept_id := "c" } true 30 :=
  ⟨⟨by norm_num, by norm_num, by norm_num, by norm_num, by norm_num, by norm_num,
    by norm_num, by norm_num, by norm_num⟩,
   updateChain_monotone_of_likelihood_order (1/2) { concept_id := "c" } 30
     (by norm_num) (by norm_num) (by norm_num) (by norm_num) (by norm_num)
     (by norm_num) (by norm_num) (by norm_num) (by norm_num)⟩

/-- C2 -- With prior `0.3`, slip `0.1`, guess `0.2`, correct, time 30 and
learn rate `0.3`: the likelihood is `0.41`, the pre-boost posterior is
`(0.3*0.41)/(0.3*0.41 + 0.7*0.59) = 123/536`, and the learning/forgetting
step strictly increases it. -/
theorem update_chain_scenario :
    calculateLikelihood true ((3:ℚ)/10)
        { concept_id := "loops", slip := 1/10, guess := 2/10 } = 41/100 ∧
    bayesianUpdate ((3:ℚ)/10) (41/100) =
      ((3:ℚ)/10 * (41/100)) / ((3:ℚ)/10 * (41/100) + (7/10) * (59/100)) ∧
    bayesianUpdate ((3:ℚ)/10) (41/100) = 123/536 ∧
    applyLearningForgetting (bayesianUpdate ((3:ℚ)/10) (41/100)) true (3/10) 30
      > bayesianUpdate ((3:ℚ)/10) (41/100) := by
  have hb : bayesianUpdate ((3:ℚ)/10) (41/100) = 123/536 := by
    rw [bayesianUpdate_eq_clip (by norm_num) (by norm_num) (by norm_num) (by norm_num)]
    have h : ((3:ℚ)/10 * (41/100)) /
        ((3:ℚ)/10 * (41/100) + (1 - 3/10) * (1 - 41/100)) = 123/536 := by norm_num
    rw [h, clip_of_mem (by norm_num) (by norm_num)]
  refine ⟨by norm_num [calculateLikelihood], ?_, hb, ?_⟩
  · rw [hb]; norm_num
  · rw [hb]
    simp only [applyLearningForgetting, if_pos]
    have h30 : min ((30:ℚ)/30) 1 = 1 := by norm_num
    rw [h30]
    rw [clip_of_mem (by norm_num) (by norm_num)]
    norm_num

/-! ### Evaluation suite (`src/ai-service/evaluation.py`, `KTEvaluator`) -/

/-- Modelled from the spec: `sklearn.metrics.roc_auc_score`, the external
library call inside `KTEvaluator.compute_auc` — "standard ROC-AUC", here in
its Mann-Whitney pair-counting formulation over (label, prediction) pairs
with positive class `1` and negative class `0`. -/
def rocAucScore (y_true : List ℤ) (y_pred : List ℚ) : ℚ :=
  let pairs := y_true.zip y_pred
  let pos := pairs.filter (fun d => d.1 = 1)
  let neg := pairs.filter (fun d => d.1 = 0)
  let wins := (pos.map (fun p =>
    (neg.map (fun q =>
      if q.2 < p.2 then (1:ℚ) else if p.2 = q.2 then 1/2 else 0)).sum)).sum
  wins / (pos.length * neg.length)

/-- `KTEvaluator.compute_auc`: returns `0.5` when `y_true` has fewer than
two distinct classes, else the ROC-AUC of the predictions. -/
def compute_auc (y_true : List ℤ) (y_pred : List ℚ) : ℚ :=
  if y_true.dedup.length < 2 then 1/2
  else rocAucScore y_true y_pred

/-- C9 -- whenever `y_true` contains fewer than two distinct classes,
`compute_auc` returns exactly `0.5`, for any prediction list. -/
theorem compute_auc_degenerate (y_true : List ℤ) (y_pred : List ℚ)
    (h : y_true.dedup.length < 2) :
    compute_auc y_true y_pred = 1/2 := by
  simp only [compute_auc, if_pos h]

/-- Witness for `compute_auc_degenerate` at `y_true = [1,1,1]`,
`y_pred = [0.9, 0.8, 0.7]`. -/
theorem compute_auc_degenerate_witness :
    ([1, 1, 1] : List ℤ).dedup.length < 2 ∧
    compute_auc [1, 1, 1] [9/10, 8/10, 7/10] = 1/2 :=
  ⟨by decide, compute_auc_degenerate [1, 1, 1] [9/10, 8/10, 7/10] (by decide)⟩

/-- Result record of `KTEvaluator.compute_calibration`. -/
structure CalibrationResult where
  bin_means : List ℚ
  bin_accuracies : List ℚ
  bin_counts : List ℕ
  ece : ℚ
  deriving Repr, DecidableEq

/-- The mask of bin `i` in `KTEvaluator.compute_calibration`:
`bins[i] <= p < bins[i+1]` with `bins = np.linspace(0, 1, n_bins + 1)`,
i.e. `bins[i] = i / n_bins`, applied to a (label, prediction) pair list. -/
def calibSelect (n_bins : ℕ) (data : List (ℚ × ℚ)) (i : ℕ) : List (ℚ × ℚ) :=
  data.filter (fun d => (i : ℚ) / n_bins ≤ d.2 ∧ d.2 < ((i : ℚ) + 1) / n_bins)

/-- One iteration of the per-bin loop of `compute_calibration`: `none` for
an empty bin (`mask.sum() == 0`), else (mean prediction, mean label,
count). -/
def calibSlot (n_bins : ℕ) (data : List (ℚ × ℚ)) (i : ℕ) : Option (ℚ × ℚ × ℕ) :=
  let sel := calibSelect n_bins data i
  if sel.length = 0 then none
  else some ((sel.map Prod.snd).sum / sel.length,
    ((sel.map Prod.fst).sum / sel.length, sel.length))

/-- The per-bin loop of `compute_calibration`: for each non-empty bin,
record (mean prediction, mean label, count). -/
def calibBins (n_bins : ℕ) (data : List (ℚ × ℚ)) : List (ℚ × ℚ × ℕ) :=
  (List.range n_bins).filterMap (calibSlot n_bins data)

/-- `KTEvaluator.compute_calibration`: reliability-diagram data plus the
expected calibration error, whose weights divide by `total = len(y_true)`. -/
def compute_calibration (y_true y_pred : List ℚ) (n_bins : ℕ) : CalibrationResult :=
  let data := y_true.zip y_pred
  let bins := calibBins n_bins data
  { bin_means := bins.map (fun b => b.1)
    bin_accuracies := bins.map (fun b => b.2.1)
    bin_counts := bins.map (fun b => b.2.2)
    ece := (bins.map (fun b =>
      ((b.2.2 : ℚ) / (y_true.length : ℚ)) * |b.2.1 - b.1|)).sum }

/-- A prediction equal to `1` satisfies no bin's mask: appending `(y, 1)`
leaves every bin selection unchanged. -/
lemma calibSelect_append_one (n : ℕ) (data : List (ℚ × ℚ)) (y : ℚ) (i : ℕ)
    (hi : i < n) :
    calibSelect n (data ++ [(y, 1)]) i = calibSelect n data i := by
  have hn : (0:ℚ) < n := by
    have : 0 < n := lt_of_le_of_lt (Nat.zero_le i) hi
    exact_mod_cast this
  have hub : ((i:ℚ) + 1) / n ≤ 1 := by
    rw [div_le_one hn]
    have : (i + 1 : ℕ) ≤ n := hi
    exact_mod_cast this
  have hno : ¬ ((i:ℚ) / n ≤ (1:ℚ) ∧ (1:ℚ) < ((i:ℚ) + 1) / n) :=
    fun h => absurd h.2 (not_lt.mpr hub)
  unfold calibSelect
  rw [List.filter_append]
  simp [hno]

/-- Appending a `(label, 1)` pair leaves the whole per-bin loop output
unchanged. -/
lemma calibBins_append_one (n : ℕ) (data : List (ℚ × ℚ)) (y : ℚ) :
    calibBins n (data ++ [(y, 1)]) = calibBins n data := by
  unfold calibBins
  apply List.filterMap_congr
  intro i hi
  rw [List.mem_range] at hi
  unfold calibSlot
  rw [calibSelect_append_one n data y i hi]

/-- The bin masks are pairwise disjoint: a prediction lies in at most one
bin. -/
lemma bin_mem_unique {n i j : ℕ} (x : ℚ) (hi : i < n) (hj : j < n)
    (h1 : (i:ℚ) / n ≤ x ∧ x < ((i:ℚ) + 1) / n)
    (h2 : (j:ℚ) / n ≤ x ∧ x < ((j:ℚ) + 1) / n) : i = j := by
  have hn : (0:ℚ) < n := by
    have : 0 < n := lt_of_le_of_lt (Nat.zero_le i) hi
    exact_mod_cast this
  have hij : i < j + 1 := by
    have h := lt_of_le_of_lt h1.1 h2.2
    rw [div_lt_div_iff hn hn] at h
    have h' : (i:ℚ) < (j:ℚ) + 1 := lt_of_mul_lt_mul_right h (le_of_lt hn)
    exact_mod_cast h'
  have hji : j < i + 1 := by
    have h := lt_of_le_of_lt h2.1 h1.2
    rw [div_lt_div_iff hn hn] at h
    have h' : (j:ℚ) < (i:ℚ) + 1 := lt_of_mul_lt_mul_right h (le_of_lt hn)
    exact_mod_cast h'
  omega

/-- The bin occupancy counts sum to at most the number of data points. -/
lemma sum_calibSelect_length_le (n : ℕ) (data : List (ℚ × ℚ)) :
    (∑ i in Finset.range n, (calibSelect n data i).length) ≤ data.length := by
  induction data with
  | nil => simp [calibSelect]
  | cons d t ih =>
    have hsplit : ∀ i, (calibSelect n (d :: t) i).length
        = (if (i:ℚ) / n ≤ d.2 ∧ d.2 < ((i:ℚ) + 1) / n then 1 else 0)
          + (calibSelect n t i).length := by
      intro i
      by_cases h : (i:ℚ) / n ≤ d.2 ∧ d.2 < ((i:ℚ) + 1) / n
      · simp [calibSelect, List.filter_cons, h, Nat.add_comm]
      · simp [calibSelect, List.filter_cons, h]
    have hone : (∑ i in Finset.range n,
        if (i:ℚ) / n ≤ d.2 ∧ d.2 < ((i:ℚ) + 1) / n then 1 else 0) ≤ 1 := by
      rw [Finset.sum_boole]
      simp only [Nat.cast_id]
      exact Finset.card_le_one.mpr (fun a ha b hb => by
        rw [Finset.mem_filter, Finset.mem_range] at ha hb
        exact bin_mem_unique d.2 ha.1 hb.1 ha.2 hb.2)
    calc (∑ i in Finset.range n, (calibSelect n (d :: t) i).length)
        = (∑ i in Finset.range n,
            ((if (i:ℚ) / n ≤ d.2 ∧ d.2 < ((i:ℚ) + 1) / n then 1 else 0)
              + (calibSelect n t i).length)) :=
          Finset.sum_congr rfl (fun i _ => hsplit i)
      _ = (∑ i in Finset.range n,
            if (i:ℚ) / n ≤ d.2 ∧ d.2 < ((i:ℚ) + 1) / n then 1 else 0)
          + (∑ i in Finset.range n, (calibSelect n t i).length) :=
          Finset.sum_add_distrib
      _ ≤ 1 + t.length := add_le_add hone ih
      _ = (d :: t).length := by simp [Nat.add_comm]

/-- The recorded `bin_counts` sum to the total occupancy of all bins. -/
lemma calibBins_counts_sum (n : ℕ) (data : List (ℚ × ℚ)) :
    ((calibBins n data).map (fun b => b.2.2)).sum
      = ∑ i in Finset.range n, (calibSelect n data i).length := by
  have hbridge : (∑ i in Finset.range n, (calibSelect n data i).length)
      = ((List.range n).map (fun i => (calibSelect n data i).length)).sum := rfl
  rw [hbridge]
  unfold calibBins
  generalize List.range n = idx
  induction idx with
  | nil => simp
  | cons i t ih =>
    by_cases h : (calibSelect n data i).length = 0
    · have hslot : calibSlot n data i = none := by
        simp only [calibSlot]
        rw [if_pos h]
      rw [List.filterMap_cons_none hslot, List.map_cons, List.sum_cons, h, ih,
        Nat.zero_add]
    · have hslot : calibSlot n data i =
          some (((calibSelect n data i).map Prod.snd).sum / (calibSelect n data i).length,
            (((calibSelect n data i).map Prod.fst).sum / (calibSelect n data i).length,
              (calibSelect n data i).length)) := by
        simp only [calibSlot]
        rw [if_neg h]
      rw [List.filterMap_cons_some hslot, List.map_cons, List.sum_cons, List.map_cons,
        List.sum_cons, ih]

/-- Multiplying the ECE sum by its weight denominator clears the division. -/
lemma ece_sum_mul {bins : List (ℚ × ℚ × ℕ)} {D : ℚ} (hD : D ≠ 0) :
    ((bins.map (fun b => ((b.2.2 : ℚ) / D) * |b.2.1 - b.1|)).sum) * D
      = (bins.map (fun b => (b.2.2 : ℚ) * |b.2.1 - b.1|)).sum := by
  induction bins with
  | nil => simp
  | cons b t ih =>
    simp only [List.map_cons, List.sum_cons, add_mul, ih]
    congr 1
    field_simp

/-- On empty data every bin is empty, so the loop records nothing. -/
lemma calibBins_nil (n : ℕ) : calibBins n ([] : List (ℚ × ℚ)) = [] :=
  List.filterMap_eq_nil.mpr (fun _ _ => rfl)

/-- C10 -- a prediction exactly equal to `1.0` is assigned to no bin: it
leaves `bin_means`, `bin_accuracies` and `bin_counts` unchanged, the sum of
`bin_counts` stays strictly below the number of predictions, yet the
prediction still inflates the `total` denominator of the ECE weights
(so the ECE is rescaled by `total/(total+1)`: such predictions contribute
zero weight). -/
theorem calibration_pred_one_zero_weight (y_true y_pred : List ℚ) (y : ℚ) (n_bins : ℕ)
    (hlen : y_true.length = y_pred.length) :
    (compute_calibration (y_true ++ [y]) (y_pred ++ [1]) n_bins).bin_means
        = (compute_calibration y_true y_pred n_bins).bin_means ∧
    (compute_calibration (y_true ++ [y]) (y_pred ++ [1]) n_bins).bin_accuracies
        = (compute_calibration y_true y_pred n_bins).bin_accuracies ∧
    (compute_calibration (y_true ++ [y]) (y_pred ++ [1]) n_bins).bin_counts
        = (compute_calibration y_true y_pred n_bins).bin_counts ∧
    ((compute_calibration (y_true ++ [y]) (y_pred ++ [1]) n_bins).bin_counts).sum
        < (y_pred ++ [1]).length ∧
    (compute_calibration (y_true ++ [y]) (y_pred ++ [1]) n_bins).ece
        * ((y_true.length : ℚ) + 1)
      = (compute_calibration y_true y_pred n_bins).ece * (y_true.length : ℚ) := by
  have hzip : (y_true ++ [y]).zip (y_pred ++ [1]) = y_true.zip y_pred ++ [(y, 1)] :=
    List.zip_append hlen
  have hbins : calibBins n_bins ((y_true ++ [y]).zip (y_pred ++ [1]))
      = calibBins n_bins (y_true.zip y_pred) := by
    rw [hzip, calibBins_append_one]
  have hdatalen : (y_true.zip y_pred).length = y_true.length := by
    rw [List.length_zip, hlen, Nat.min_self]
  have hcast : (((y_true ++ [y]).length : ℕ) : ℚ) = (y_true.length : ℚ) + 1 := by
    push_cast [List.length_append, List.length_singleton]
    ring
  simp only [compute_calibration]
  refine ⟨by rw [hbins], by rw [hbins], by rw [hbins], ?_, ?_⟩
  · rw [hbins, calibBins_counts_sum]
    have h1 : (∑ i in Finset.range n_bins, (calibSelect n_bins (y_true.zip y_pred) i).length)
        ≤ (y_true.zip y_pred).length := sum_calibSelect_length_le _ _
    have happ : (y_pred ++ [1]).length = y_pred.length + 1 := by simp
    omega
  · rw [hbins, hcast]
    have hD1 : (y_true.length : ℚ) + 1 ≠ 0 := by positivity
    rcases eq_or_ne y_true.length 0 with h0 | h0
    · have hy : y_true = [] := List.length_eq_zero.mp h0
      subst hy
      simp [calibBins_nil]
    · have hD2 : (y_true.length : ℚ) ≠ 0 := Nat.cast_ne_zero.mpr h0
      rw [ece_sum_mul hD1, ece_sum_mul hD2]

/-- Witness for `calibration_pred_one_zero_weight` at `y_true = [1]`,
`y_pred = [0.5]`, appended label `0`, ten bins. -/
theorem calibration_pred_one_zero_weight_witness :
    ([(1:ℚ)].length = [(1:ℚ)/2].length) ∧
    ((compute_calibration ([(1:ℚ)] ++ [0]) ([(1:ℚ)/2] ++ [1]) 10).bin_means
        = (compute_calibration [(1:ℚ)] [(1:ℚ)/2] 10).bin_means ∧
      (compute_calibration ([(1:ℚ)] ++ [0]) ([(1:ℚ)/2] ++ [1]) 10).bin_accuracies
        = (compute_calibration [(1:ℚ)] [(1:ℚ)/2] 10).bin_accuracies ∧
      (compute_calibration ([(1:ℚ)] ++ [0]) ([(1:ℚ)/2] ++ [1]) 10).bin_counts
        = (compute_calibration [(1:ℚ)] [(1:ℚ)/2] 10).bin_counts ∧
      ((compute_calibration ([(1:ℚ)] ++ [0]) ([(1:ℚ)/2] ++ [1]) 10).bin_counts).sum
        < ([(1:ℚ)/2] ++ [1]).length ∧
      (compute_calibration ([(1:ℚ)] ++ [0]) ([(1:ℚ)/2] ++ [1]) 10).ece
          * (([(1:ℚ)].length : ℚ) + 1)
        = (compute_calibration [(1:ℚ)] [(1:ℚ)/2] 10).ece * (([(1:ℚ)].length : ℚ))) :=
  ⟨rfl, calibration_pred_one_zero_weight [(1:ℚ)] [(1:ℚ)/2] 0 10 rfl⟩

/-! ### The stateful hybrid model (`BKTIRTHybrid`), over `ℝ` -/

/-- `UserState` dataclass of `bkt_irt_hybrid.py`. -/
structure UserState where
  user_id : String
  concept_mastery : List (String × ℝ)
  theta : ℝ := 0
  confidence_intervals : List (String × (ℝ × ℝ)) := []
  last_updated : Option String := none

/-- `MasteryUpdate` dataclass (transient result of `update_mastery`). -/
structure MasteryUpdate where
  concept_id : String
  prior_mastery : ℝ
  posterior_mastery : ℝ
  confidence : ℝ
  ability : ℝ
  standard_error : ℝ

/-- Result dict of `_update_ability_estimate`. -/
structure AbilityUpdate where
  theta : ℝ
  se : ℝ
  probability : ℝ

/-- In-memory state of a `BKTIRTHybrid` instance. -/
structure Model where
  user_states : List (String × UserState) := []
  concept_params : List (String × ConceptParams ℝ) := []
  discrimination : ℝ := 17/10

noncomputable section

/-- A freshly constructed `BKTIRTHybrid()`. -/
def emptyModel : Model := {}

/-- `BKTIRTHybrid.initialize_concept`. -/
def initializeConcept (m : Model) (concept_id : String)
    (difficulty slip guess : ℝ) : Model :=
  { m with
      concept_params := upsert concept_id
        { concept_id := concept_id, beta := difficulty, slip := slip, guess := guess }
        m.concept_params }

/-- `BKTIRTHybrid.get_user_state`: get-or-create (inserts a default state
for an unknown user). -/
def getUserState (m : Model) (user_id : String) : Model × UserState :=
  match m.user_states.lookup user_id with
  | some s => (m, s)
  | none =>
    let s : UserState := { user_id := user_id, concept_mastery := [], theta := 0 }
    ({ m with user_states := upsert user_id s m.user_states }, s)

/-- `BKTIRTHybrid.get_concept_params`: get-or-create (initializes default
parameters for an unknown concept). -/
def getConceptParams (m : Model) (concept_id : String) : Model × ConceptParams ℝ :=
  match m.concept_params.lookup concept_id with
  | some p => (m, p)
  | none =>
    (initializeConcept m concept_id 0 (1/10) (2/10),
      { concept_id := concept_id, beta := 0, slip := 1/10, guess := 2/10 })

/-- `BKTIRTHybrid._update_ability_estimate`: one Newton-Raphson step of the
2PL IRT ability estimate, with Fisher-information floor and `[-3, 3]`
clamping. -/
def updateAbilityEstimate (theta beta : ℝ) (correct : Bool)
    (discrimination : ℝ) : AbilityUpdate :=
  let z := discrimination * (theta - beta)
  let probability := 1 / (1 + Real.exp (-z))
  let information := discrimination ^ 2 * probability * (1 - probability)
  let residual := (if correct then (1:ℝ) else 0) - probability
  let information := if information < 1/1000000 then 1/1000000 else information
  let theta_update := clip (theta + residual / information) (-3) 3
  let se := if 0 < information then 1 / Real.sqrt information else 1
  { theta := theta_update, se := se, probability := probability }

/-- `BKTIRTHybrid._calculate_ci`: 95% confidence interval around the
mastery estimate. -/
def calculateCI (mastery standard_error : ℝ) : ℝ × ℝ :=
  let margin := (196/100) * standard_error
  (max (1/100) (mastery - margin), min (99/100) (mastery + margin))

/-- `BKTIRTHybrid.update_mastery`: the single mutating entry point — runs
the BKT likelihood, Bayes update, IRT ability step, confidence and
learning/forgetting, persists the results into the user state and returns
a `MasteryUpdate`. -/
def updateMastery (m : Model) (user_id concept_id : String)
    (correct : Bool) (time_spent : ℝ) : Model × MasteryUpdate :=
  let p1 := getUserState m user_id
  let m1 := p1.1
  let user_state := p1.2
  let p2 := getConceptParams m1 concept_id
  let m2 := p2.1
  let concept_params := p2.2
  let prior_mastery := (user_state.concept_mastery.lookup concept_id).getD (3/10)
  let likelihood := calculateLikelihood correct prior_mastery concept_params
  let posterior_mastery := bayesianUpdate prior_mastery likelihood
  let ability_update := updateAbilityEstimate user_state.theta concept_params.beta
    correct concept_params.discrimination
  let confidence := calculateConfidence prior_mastery posterior_mastery time_spent
  let posterior_mastery := applyLearningForgetting posterior_mastery correct
    concept_params.learn time_spent
  let user_state' := { user_state with
                         concept_mastery :=
                           upsert concept_id posterior_mastery user_state.concept_mastery,
                         theta := ability_update.theta,
                         confidence_intervals :=
                           upsert concept_id
                             (calculateCI posterior_mastery ability_update.se)
                             user_state.confidence_intervals }
  let m3 := { m2 with user_states := upsert user_id user_state' m2.user_states }
  (m3, { concept_id := concept_id, prior_mastery := prior_mastery,
         posterior_mastery := posterior_mastery, confidence := confidence,
         ability := ability_update.theta, standard_error := ability_update.se })

/-- Return dict of `predict_performance`. -/
structure PredictionBundle where
  combined_probability : ℝ
  bkt_probability : ℝ
  irt_probability : ℝ
  mastery : ℝ
  ability : ℝ
  difficulty : ℝ

/-- `BKTIRTHybrid.predict_performance`: blended BKT/IRT probability of a
correct next answer (note it calls the get-or-create accessors, so the
returned model is part of the embedding). -/
def predictPerformance (m : Model) (user_id concept_id : String) :
    Model × PredictionBundle :=
  let p1 := getUserState m user_id
  let m1 := p1.1
  let user_state := p1.2
  let p2 := getConceptParams m1 concept_id
  let m2 := p2.1
  let concept_params := p2.2
  let mastery := (user_state.concept_mastery.lookup concept_id).getD (3/10)
  let theta := user_state.theta
  let beta := concept_params.beta
  let bkt_prob := mastery * (1 - concept_params.slip) + (1 - mastery) * concept_params.guess
  let z := m.discrimination * (theta - beta)
  let irt_prob := 1 / (1 + Real.exp (-z))
  let combined_prob := (6/10) * bkt_prob + (4/10) * irt_prob
  (m2, { combined_probability := combined_prob, bkt_probability := bkt_prob,
         irt_probability := irt_prob, mastery := mastery, ability := theta,
         difficulty := beta })

end

/-- Per-user record of `BKTIRTHybrid.export_state` (the `last_updated`
field is not exported; confidence intervals are serialized as two-element
lists, Python `list(v)`). -/
structure ExportedUserState where
  user_id : String
  concept_mastery : List (String × ℝ)
  theta : ℝ
  confidence_intervals : List (String × List ℝ)

/-- Snapshot layout `{user_states: {...}, concept_params: {...}}` of
`export_state` / `load_state`. -/
structure Snapshot where
  user_states : List (String × ExportedUserState)
  concept_params : List (String × ConceptParams ℝ)

noncomputable section

/-- The per-user dict built by `export_state`. -/
def exportUser (state : UserState) : ExportedUserState :=
  { user_id := state.user_id,
    concept_mastery := state.concept_mastery,
    theta := state.theta,
    confidence_intervals := state.confidence_intervals.map
      (fun kv => (kv.1, [kv.2.1, kv.2.2])) }

/-- `BKTIRTHybrid.export_state`. -/
def exportState (m : Model) : Snapshot :=
  { user_states := m.user_states.map (fun kv => (kv.1, exportUser kv.2)),
    concept_params := m.concept_params.map (fun kv =>
      (kv.1, { concept_id := kv.2.concept_id, beta := kv.2.beta, slip := kv.2.slip,
               guess := kv.2.guess, learn := kv.2.learn, transit := kv.2.transit,
               discrimination := kv.2.discrimination })) }

/-- Python `tuple(v)` applied to a two-element list. -/
def pairOfList (l : List ℝ) : ℝ × ℝ :=
  (l.getD 0 0, l.getD 1 0)

/-- The `UserState(...)` constructor call inside `load_state`
(`last_updated` keeps its default `None`). -/
def rebuildUser (e : ExportedUserState) : UserState :=
  { user_id := e.user_id,
    concept_mastery := e.concept_mastery,
    theta := e.theta,
    confidence_intervals := e.confidence_intervals.map
      (fun kv => (kv.1, pairOfList kv.2)) }

/-- `BKTIRTHybrid.load_state`: iterate the snapshot dicts, assigning each
rebuilt entry into the model's maps. -/
def loadState (m : Model) (state : Snapshot) : Model :=
  let m1 := state.user_states.foldl
    (fun acc kv => { acc with user_states := upsert kv.1 (rebuildUser kv.2) acc.user_states })
    m
  state.concept_params.foldl
    (fun acc kv =>
      { acc with concept_params := upsert kv.1 kv.2 acc.concept_params })
    m1

end

section UpsertLemmas

variable {α : Type}

/-- Looking up the key just written always finds the written value. -/
lemma lookup_upsert_self (k : String) (v : α) :
    ∀ l : List (String × α), (upsert k v l).lookup k = some v := by
  intro l
  induction l with
  | nil => simp [upsert, List.lookup]
  | cons kv t ih =>
    by_cases h : kv.1 = k
    · simp [upsert, h, List.lookup]
    · have hne : (k == kv.1) = false := by
        simp only [beq_eq_false_iff_ne, ne_eq]
        exact fun hh => h hh.symm
      simp [upsert, h, List.lookup, hne, ih]

/-- Writing a key absent from the list appends the binding at the end. -/
lemma upsert_of_not_mem (k : String) (v : α) :
    ∀ l : List (String × α), k ∉ l.map Prod.fst → upsert k v l = l ++ [(k, v)] := by
  intro l
  induction l with
  | nil => intro _; rfl
  | cons kv t ih =>
    intro h
    simp only [List.map_cons, List.mem_cons, not_or] at h
    have h1 : kv.1 ≠ k := fun hh => h.1 hh.symm
    simp [upsert, h1, ih h.2]

end UpsertLemmas

section ClipMembership

variable {α : Type} [LinearOrderedField α]

/-- The learning/forgetting result is always clamped into `[0.01, 0.99]`. -/
lemma applyLF_mem (mastery : α) (correct : Bool) (learn_rate time_spent : α) :
    1/100 ≤ applyLearningForgetting mastery correct learn_rate time_spent ∧
    applyLearningForgetting mastery correct learn_rate time_spent ≤ 99/100 := by
  simp only [applyLearningForgetting]
  exact ⟨lo_le_clip _ (by norm_num), clip_le_hi _ _ _⟩

/-- The confidence result is always clamped into `[0.1, 0.95]`. -/
lemma confidence_mem (prior posterior time_spent : α) :
    1/10 ≤ calculateConfidence prior posterior time_spent ∧
    calculateConfidence prior posterior time_spent ≤ 95/100 := by
  simp only [calculateConfidence]
  exact ⟨lo_le_clip _ (by norm_num), clip_le_hi _ _ _⟩

end ClipMembership

/-- The updated ability estimate is always clamped into `[-3, 3]`. -/
lemma abilityTheta_mem (theta beta : ℝ) (correct : Bool) (discrimination : ℝ) :
    -3 ≤ (updateAbilityEstimate theta beta correct discrimination).theta ∧
    (updateAbilityEstimate theta beta correct discrimination).theta ≤ 3 := by
  simp only [updateAbilityEstimate]
  exact ⟨lo_le_clip _ (by norm_num), clip_le_hi _ _ _⟩

/-- C3 -- for every model state, user, concept, correctness flag and
time spent `≥ 0`, the returned `MasteryUpdate` has
`posterior_mastery ∈ [0.01, 0.99]`, `ability ∈ [-3, 3]` and
`confidence ∈ [0.1, 0.95]`, and the very same posterior and ability values
are the ones persisted into the user's state. -/
theorem updateMastery_bounds (m : Model) (user_id concept_id : String) (correct : Bool)
    (time_spent : ℝ) (ht : 0 ≤ time_spent) :
    (1/100 ≤ ((updateMastery m user_id concept_id correct time_spent).2).posterior_mastery ∧
      ((updateMastery m user_id concept_id correct time_spent).2).posterior_mastery ≤ 99/100) ∧
    (-3 ≤ ((updateMastery m user_id concept_id correct time_spent).2).ability ∧
      ((updateMastery m user_id concept_id correct time_spent).2).ability ≤ 3) ∧
    (1/10 ≤ ((updateMastery m user_id concept_id correct time_spent).2).confidence ∧
      ((updateMastery m user_id concept_id correct time_spent).2).confidence ≤ 95/100) ∧
    (∃ us,
      ((updateMastery m user_id concept_id correct time_spent).1).user_states.lookup user_id
          = some us ∧
      us.concept_mastery.lookup concept_id
          = some ((updateMastery m user_id concept_id correct time_spent).2).posterior_mastery ∧
      us.theta = ((updateMastery m user_id concept_id correct time_spent).2).ability) := by
  simp only [updateMastery]
  refine ⟨applyLF_mem _ _ _ _, abilityTheta_mem _ _ _ _, confidence_mem _ _ _, ?_⟩
  exact ⟨_, lookup_upsert_self _ _ _, lookup_upsert_self _ _ _, rfl⟩

/-- Witness for `updateMastery_bounds` on a fresh model at user `"u"`,
concept `"c"`, a correct answer and 30 seconds. -/
theorem updateMastery_bounds_witness :
    (0:ℝ) ≤ 30 ∧
    ((1/100 ≤ ((updateMastery emptyModel "u" "c" true 30).2).posterior_mastery ∧
      ((updateMastery emptyModel "u" "c" true 30).2).posterior_mastery ≤ 99/100) ∧
    (-3 ≤ ((updateMastery emptyModel "u" "c" true 30).2).ability ∧
      ((updateMastery emptyModel "u" "c" true 30).2).ability ≤ 3) ∧
    (1/10 ≤ ((updateMastery emptyModel "u" "c" true 30).2).confidence ∧
      ((updateMastery emptyModel "u" "c" true 30).2).confidence ≤ 95/100) ∧
    (∃ us,
      ((updateMastery emptyModel "u" "c" true 30).1).user_states.lookup "u" = some us ∧
      us.concept_mastery.lookup "c"
          = some ((updateMastery emptyModel "u" "c" true 30).2).posterior_mastery ∧
      us.theta = ((updateMastery emptyModel "u" "c" true 30).2).ability)) :=
  ⟨by norm_num, updateMastery_bounds emptyModel "u" "c" true 30 (by norm_num)⟩

/-- C5 counterexample -- `predict_performance` on a fresh model for a
never-seen user mutates the model state: the get-or-create accessors
insert a default `UserState` (and default `ConceptParams`), so the state
after the call differs from the state before. -/
theorem predictPerformance_mutates_fresh :
    (predictPerformance emptyModel "u" "c").1 ≠ emptyModel := by
  intro h
  have hlen := congrArg (fun mm => mm.user_states.length) h
  simp only [predictPerformance, getUserState, getConceptParams, initializeConcept,
    emptyModel, upsert, List.lookup] at hlen
  exact absurd hlen (by simp)

/-- C5 amended -- `predict_performance` leaves the model state unchanged
whenever the user and the concept are already present in the maps; for
never-seen ids it only lazily inserts default entries (see the
counterexample `predictPerformance_mutates_fresh`). -/
theorem predictPerformance_pure_of_mem (m : Model) (user_id concept_id : String)
    (u : UserState) (p : ConceptParams ℝ)
    (hu : m.user_states.lookup user_id = some u)
    (hc : m.concept_params.lookup concept_id = some p) :
    (predictPerformance m user_id concept_id).1 = m := by
  simp only [predictPerformance, getUserState, getConceptParams, hu, hc]

noncomputable section

/-- A one-user state used as a witness input. -/
def sampleUser : UserState := { user_id := "u", concept_mastery := [] }

/-- A one-concept parameter set used as a witness input. -/
def sampleParams : ConceptParams ℝ := { concept_id := "c" }

/-- A model already containing user `"u"` and concept `"c"`. -/
def sampleModel : Model :=
  { user_states := [("u", sampleUser)], concept_params := [("c", sampleParams)] }

end

/-- Witness for `predictPerformance_pure_of_mem` on `sampleModel`. -/
theorem predictPerformance_pure_of_mem_witness :
    (sampleModel.user_states.lookup "u" = some sampleUser ∧
      sampleModel.concept_params.lookup "c" = some sampleParams) ∧
    (predictPerformance sampleModel "u" "c").1 = sampleModel :=
  ⟨⟨by simp [sampleModel, List.lookup], by simp [sampleModel, List.lookup]⟩,
    predictPerformance_pure_of_mem sampleModel "u" "c" sampleUser sampleParams
      (by simp [sampleModel, List.lookup]) (by simp [sampleModel, List.lookup])⟩

/-- Rebuilding an exported user record restores every exported field; only
`last_updated` is reset to its default. -/
lemma rebuildUser_exportUser (u : UserState) :
    rebuildUser (exportUser u) = { u with last_updated := none } := by
  have hci : (exportUser u).confidence_intervals.map (fun kv => (kv.1, pairOfList kv.2))
      = u.confidence_intervals := by
    simp only [exportUser, List.map_map]
    have h : ((fun kv : String × List ℝ => (kv.1, pairOfList kv.2)) ∘
        (fun kv : String × (ℝ × ℝ) => (kv.1, [kv.2.1, kv.2.2])))
        = fun kv => kv := rfl
    rw [h, List.map_id']
  unfold rebuildUser
  rw [hci]
  rfl

/-- Folding `upsert`s of pairwise-fresh keys over a disjoint accumulator
appends the (value-mapped) entries in order. -/
lemma foldl_upsert_map {γ δ : Type} (f : γ → δ) :
    ∀ (entries : List (String × γ)) (acc : List (String × δ)),
      (entries.map Prod.fst).Nodup →
      (∀ k ∈ entries.map Prod.fst, k ∉ acc.map Prod.fst) →
      entries.foldl (fun l kv => upsert kv.1 (f kv.2) l) acc
        = acc ++ entries.map (fun kv => (kv.1, f kv.2)) := by
  intro entries
  induction entries with
  | nil => intro acc _ _; simp
  | cons kv t ih =>
    intro acc hnd hdis
    simp only [List.map_cons, List.nodup_cons] at hnd
    have hk : kv.1 ∉ acc.map Prod.fst := hdis kv.1 (by simp)
    rw [List.foldl_cons, upsert_of_not_mem kv.1 (f kv.2) acc hk,
      ih (acc ++ [(kv.1, f kv.2)]) hnd.2 ?_]
    · simp
    · intro k hkmem
      have hk1 : k ≠ kv.1 := by
        intro hh
        exact hnd.1 (hh ▸ hkmem)
      have hk2 : k ∉ acc.map Prod.fst := hdis k (by simp [hkmem])
      simp only [List.map_append, List.mem_append, List.map_cons, List.map_nil,
        List.mem_singleton, not_or]
      exact ⟨hk2, hk1⟩

/-- The concept-parameter loop of `load_state` does not touch user states. -/
lemma foldlConcepts_user_states :
    ∀ (entries : List (String × ConceptParams ℝ)) (mm : Model),
      (entries.foldl
        (fun acc kv => { acc with concept_params := upsert kv.1 kv.2 acc.concept_params })
        mm).user_states = mm.user_states := by
  intro entries
  induction entries with
  | nil => intro mm; rfl
  | cons kv t ih => intro mm; rw [List.foldl_cons, ih]

/-- The user-state loop of `load_state`, projected to the user map. -/
lemma foldlUsers_user_states :
    ∀ (entries : List (String × ExportedUserState)) (mm : Model),
      (entries.foldl
        (fun acc kv =>
          { acc with user_states := upsert kv.1 (rebuildUser kv.2) acc.user_states })
        mm).user_states
      = entries.foldl (fun l kv => upsert kv.1 (rebuildUser kv.2) l) mm.user_states := by
  intro entries
  induction entries with
  | nil => intro mm; rfl
  | cons kv t ih => intro mm; rw [List.foldl_cons, ih, List.foldl_cons]

/-- The user-state loop of `load_state` does not touch concept parameters. -/
lemma foldlUsers_concept_params :
    ∀ (entries : List (String × ExportedUserState)) (mm : Model),
      (entries.foldl
        (fun acc kv =>
          { acc with user_states := upsert kv.1 (rebuildUser kv.2) acc.user_states })
        mm).concept_params = mm.concept_params := by
  intro entries
  induction entries with
  | nil => intro mm; rfl
  | cons kv t ih => intro mm; rw [List.foldl_cons, ih]

/-- The concept-parameter loop of `load_state`, projected to the concept
map. -/
lemma foldlConcepts_concept_params :
    ∀ (entries : List (String × ConceptParams ℝ)) (mm : Model),
      (entries.foldl
        (fun acc kv => { acc with concept_params := upsert kv.1 kv.2 acc.concept_params })
        mm).concept_params
      = entries.foldl (fun l kv => upsert kv.1 kv.2 l) mm.concept_params := by
  intro entries
  induction entries with
  | nil => intro mm; rfl
  | cons kv t ih => intro mm; rw [List.foldl_cons, ih, List.foldl_cons]

/-- Exporting preserves the key sequence of the user map. -/
lemma exportState_user_keys (m : Model) :
    (exportState m).user_states.map Prod.fst = m.user_states.map Prod.fst := by
  simp [exportState, List.map_map, Function.comp]

/-- Exporting the concept map is the identity: every field of
`ConceptParams` is serialized and restored. -/
lemma exportState_concept_params (m : Model) :
    (exportState m).concept_params = m.concept_params := by
  show m.concept_params.map (fun kv => kv) = m.concept_params
  simp

/-- C8 -- exporting a model and loading the snapshot into a fresh model
reproduces the state: the concept map is restored exactly (all of beta,
slip, guess, learn, transit, discrimination), and the user map is restored
with every user_id, concept_mastery, theta and confidence_intervals equal
to the originals (`last_updated`, which `export_state` does not serialize,
resets to its default). -/
theorem exportState_loadState_roundtrip (m : Model)
    (hu : (m.user_states.map Prod.fst).Nodup)
    (hc : (m.concept_params.map Prod.fst).Nodup) :
    (loadState emptyModel (exportState m)).user_states
        = m.user_states.map (fun kv => (kv.1, { kv.2 with last_updated := none })) ∧
    (loadState emptyModel (exportState m)).concept_params = m.concept_params := by
  constructor
  · show (loadState emptyModel (exportState m)).user_states = _
    unfold loadState
    rw [foldlConcepts_user_states, foldlUsers_user_states]
    rw [show emptyModel.user_states = ([] : List (String × UserState)) from rfl]
    rw [foldl_upsert_map rebuildUser (exportState m).user_states []
      (by rw [exportState_user_keys]; exact hu) (fun k _ => by simp)]
    have hfun : ((fun kv : String × ExportedUserState => (kv.1, rebuildUser kv.2)) ∘
        (fun kv : String × UserState => (kv.1, exportUser kv.2)))
        = fun kv => (kv.1, { kv.2 with last_updated := none }) := by
      funext kv
      simp [Function.comp, rebuildUser_exportUser]
    show ([] : List (String × UserState))
        ++ (m.user_states.map (fun kv => (kv.1, exportUser kv.2))).map
            (fun kv => (kv.1, rebuildUser kv.2)) = _
    rw [List.nil_append, List.map_map, hfun]
  · show (loadState emptyModel (exportState m)).concept_params = _
    unfold loadState
    rw [foldlConcepts_concept_params, foldlUsers_concept_params]
    show (exportState m).concept_params.foldl (fun l kv => upsert kv.1 (id kv.2) l)
        ([] : List (String × ConceptParams ℝ)) = m.concept_params
    rw [foldl_upsert_map id (exportState m).concept_params []
      (by rw [exportState_concept_params]; exact hc) (fun k _ => by simp)]
    have hfun : (fun kv : String × ConceptParams ℝ => (kv.1, id kv.2)) = fun kv => kv := rfl
    rw [List.nil_append, hfun, List.map_id', exportState_concept_params]

/-- Witness for `exportState_loadState_roundtrip` on the one-user,
one-concept `sampleModel`. -/
theorem exportState_loadState_roundtrip_witness :
    ((sampleModel.user_states.map Prod.fst).Nodup ∧
      (sampleModel.concept_params.map Prod.fst).Nodup) ∧
    ((loadState emptyModel (exportState sampleModel)).user_states
        = sampleModel.user_states.map (fun kv => (kv.1, { kv.2 with last_updated := none })) ∧
      (loadState emptyModel (exportState sampleModel)).concept_params
        = sampleModel.concept_params) :=
  ⟨⟨by simp [sampleModel], by simp [sampleModel]⟩,
    exportState_loadState_roundtrip sampleModel (by simp [sampleModel])
      (by simp [sampleModel])⟩

/-! ### The C7 scenario: three correct answers from θ = 0, β = 0.5 -/

/-- One ability update of the C7 scenario: `correct = True`, `beta = 0.5`,
`discrimination = 1.7`. -/
noncomputable def abilityStep (theta : ℝ) : ℝ :=
  (updateAbilityEstimate theta (1/2) true (17/10)).theta

/-- Squaring the first-order bound: `(1 + x/2)^2 ≤ exp x` for `x ≥ 0`. -/
lemma exp_sq_lower (x : ℝ) (hx : 0 ≤ x) : (1 + x/2)^2 ≤ Real.exp x := by
  have h := Real.add_one_le_exp (x/2)
  have h2 : Real.exp x = Real.exp (x/2) * Real.exp (x/2) := by
    rw [← Real.exp_add]; ring_nf
  nlinarith [Real.exp_pos (x/2)]

/-- Reciprocal of the first-order bound: `exp x ≤ 1/(1-x)` for `0 ≤ x < 1`. -/
lemma exp_upper_via_neg (x : ℝ) (hx : 0 ≤ x) (hx1 : x < 1) :
    Real.exp x ≤ 1/(1 - x) := by
  have h := Real.add_one_le_exp (-x)
  have hpos : (0:ℝ) < 1 - x := by linarith
  have hprod : Real.exp x * Real.exp (-x) = 1 := by
    rw [← Real.exp_add]; simp
  rw [le_div_iff hpos]
  nlinarith [Real.exp_pos x]

/-- Closed form of the scenario ability step when the information floor is
not triggered and the `[-3, 3]` clamp is not binding: since the residual is
`1 - p` and the information is `1.7^2 * p * (1-p)`, the Newton-Raphson
increment simplifies to `(1 + exp(-z)) / 1.7^2`. -/
lemma abilityStep_eq (θ : ℝ)
    (h1 : 1/20 ≤ Real.exp (-(17/10 * (θ - 1/2))))
    (h2 : Real.exp (-(17/10 * (θ - 1/2))) ≤ 3)
    (h3 : 0 ≤ θ)
    (h4 : θ + (1 + Real.exp (-(17/10 * (θ - 1/2)))) / (289/100) ≤ 3) :
    abilityStep θ = θ + (1 + Real.exp (-(17/10 * (θ - 1/2)))) / (289/100) := by
  set E := Real.exp (-(17/10 * (θ - 1/2))) with hEdef
  have hEpos : 0 < E := Real.exp_pos _
  have hden : (0:ℝ) < 1 + E := by linarith
  have hdenne : (1 + E) ≠ 0 := ne_of_gt hden
  have hEne : E ≠ 0 := ne_of_gt hEpos
  have hinfo_val : (17/10:ℝ)^2 * (1/(1+E)) * (1 - 1/(1+E)) = (289/100) * E / (1 + E)^2 := by
    field_simp
    ring
  have hinfo_ge : (1:ℝ)/1000000 ≤ (17/10:ℝ)^2 * (1/(1+E)) * (1 - 1/(1+E)) := by
    rw [hinfo_val, le_div_iff (by positivity)]
    nlinarith
  have hfloor : ¬ ((17/10:ℝ)^2 * (1/(1+E)) * (1 - 1/(1+E)) < 1/1000000) :=
    not_lt.mpr hinfo_ge
  have hred : abilityStep θ
      = clip (θ + ((1:ℝ) - 1/(1+E)) /
          (if (17/10:ℝ)^2 * (1/(1+E)) * (1 - 1/(1+E)) < 1/1000000 then 1/1000000
           else (17/10:ℝ)^2 * (1/(1+E)) * (1 - 1/(1+E)))) (-3) 3 := rfl
  rw [hred, if_neg hfloor]
  have hp1 : 1/(1+E) < 1 := by
    rw [div_lt_one hden]; linarith
  have hone : (1:ℝ) - 1/(1+E) ≠ 0 := by
    intro hcontra
    have : 1/(1+E) = 1 := by linarith
    rw [this] at hp1
    exact lt_irrefl 1 hp1
  have hsimp : ((1:ℝ) - 1/(1+E)) / ((17/10:ℝ)^2 * (1/(1+E)) * (1 - 1/(1+E)))
      = (1 + E) / (289/100) := by
    have hx : (0:ℝ) < (289/100) * E / (1+E)^2 := by positivity
    rw [hinfo_val, div_eq_div_iff (ne_of_gt hx) (by norm_num : (289/100:ℝ) ≠ 0)]
    field_simp
    ring
  rw [hsimp]
  have hincr : 0 < (1 + E) / (289/100) := by positivity
  exact clip_of_mem (by linarith) h4

attribute [irreducible] abilityStep

set_option maxHeartbeats 1600000 in
/-- C7 -- starting from θ = 0 with β = 0.5 and discrimination 1.7, three
consecutive ability updates with `correct = True` produce a strictly
increasing sequence of θ values (each residual is positive, the Fisher
information never hits its floor, and the `[-3, 3]` clamp never binds). -/
theorem ability_three_correct_increasing :
    0 < abilityStep 0 ∧
    abilityStep 0 < abilityStep (abilityStep 0) ∧
    abilityStep (abilityStep 0) < abilityStep (abilityStep (abilityStep 0)) := by
  have hE0eq : -(17/10 * ((0:ℝ) - 1/2)) = 17/20 := by norm_num
  have hE0lb : (203/100:ℝ) ≤ Real.exp (-(17/10 * ((0:ℝ) - 1/2))) := by
    rw [hE0eq]
    have h := exp_sq_lower (17/20) (by norm_num)
    nlinarith
  have hE0ub : Real.exp (-(17/10 * ((0:ℝ) - 1/2))) ≤ 236/100 := by
    rw [hE0eq]
    have hmul : Real.exp (17/20) * Real.exp (3/20) = Real.exp 1 := by
      rw [← Real.exp_add]; norm_num
    have hlow : ((1:ℝ) + (3/20)/2)^2 ≤ Real.exp (3/20) := exp_sq_lower (3/20) (by norm_num)
    have hone := Real.exp_one_lt_d9
    nlinarith [Real.exp_pos (17/20), Real.exp_pos (3/20)]
  have h1eq : abilityStep 0
      = 0 + (1 + Real.exp (-(17/10 * ((0:ℝ) - 1/2)))) / (289/100) := by
    refine abilityStep_eq 0 (by linarith) (by linarith) le_rfl ?_
    rw [zero_add, div_le_iff (by norm_num : (0:ℝ) < 289/100)]
    linarith
  have ht1lb : (104/100:ℝ) ≤ abilityStep 0 := by
    rw [h1eq, zero_add, le_div_iff (by norm_num : (0:ℝ) < 289/100)]
    linarith
  have ht1ub : abilityStep 0 ≤ 117/100 := by
    rw [h1eq, zero_add, div_le_iff (by norm_num : (0:ℝ) < 289/100)]
    linarith
  have hexp02 : Real.exp (2/10) ≤ 5/4 := by
    have h := exp_upper_via_neg (2/10) (by norm_num) (by norm_num)
    norm_num at h
    linarith
  have hexp12 : Real.exp (12/10) ≤ 34/10 := by
    have hmul : Real.exp (12/10) = Real.exp 1 * Real.exp (2/10) := by
      rw [← Real.exp_add]; norm_num
    nlinarith [Real.exp_one_lt_d9, hexp02, Real.exp_pos 1, Real.exp_pos (2/10)]
  have hexpneg12 : (5/17:ℝ) ≤ Real.exp (-(12/10)) := by
    have hp := Real.exp_pos (12/10)
    rw [Real.exp_neg, inv_eq_one_div, le_div_iff hp]
    nlinarith [hexp12]
  have harg1lb : (-(12/10):ℝ) ≤ -(17/10 * (abilityStep 0 - 1/2)) := by linarith
  have harg1ub : -(17/10 * (abilityStep 0 - 1/2)) ≤ 0 := by linarith
  have hA1lb : (5/100:ℝ) ≤ Real.exp (-(17/10 * (abilityStep 0 - 1/2))) := by
    have h := Real.exp_le_exp.mpr harg1lb
    linarith [hexpneg12]
  have hA1ub : Real.exp (-(17/10 * (abilityStep 0 - 1/2))) ≤ 1 := by
    have h := Real.exp_le_exp.mpr harg1ub
    rwa [Real.exp_zero] at h
  have h2eq : abilityStep (abilityStep 0)
      = abilityStep 0
        + (1 + Real.exp (-(17/10 * (abilityStep 0 - 1/2)))) / (289/100) := by
    refine abilityStep_eq (abilityStep 0) (by linarith) (by linarith) (by linarith) ?_
    have hi : (1 + Real.exp (-(17/10 * (abilityStep 0 - 1/2)))) / (289/100) ≤ 70/100 := by
      rw [div_le_iff (by norm_num : (0:ℝ) < 289/100)]
      linarith
    linarith
  have ht2lb : (140/100:ℝ) ≤ abilityStep (abilityStep 0) := by
    rw [h2eq]
    have hi : (36/100:ℝ) ≤ (1 + Real.exp (-(17/10 * (abilityStep 0 - 1/2)))) / (289/100) := by
      rw [le_div_iff (by norm_num : (0:ℝ) < 289/100)]
      linarith
    linarith
  have ht2ub : abilityStep (abilityStep 0) ≤ 187/100 := by
    rw [h2eq]
    have hi : (1 + Real.exp (-(17/10 * (abilityStep 0 - 1/2)))) / (289/100) ≤ 70/100 := by
      rw [div_le_iff (by norm_num : (0:ℝ) < 289/100)]
      linarith
    linarith
  have hexp24 : Real.exp (24/10) ≤ 1156/100 := by
    have hmul : Real.exp (24/10) = Real.exp (12/10) * Real.exp (12/10) := by
      rw [← Real.exp_add]; norm_num
    nlinarith [hexp12, Real.exp_pos (12/10)]
  have hexpneg24 : (100/1156:ℝ) ≤ Real.exp (-(24/10)) := by
    have hp := Real.exp_pos (24/10)
    rw [Real.exp_neg, inv_eq_one_div, le_div_iff hp]
    nlinarith [hexp24]
  have harg2lb : (-(24/10):ℝ) ≤ -(17/10 * (abilityStep (abilityStep 0) - 1/2)) := by
    linarith
  have harg2ub : -(17/10 * (abilityStep (abilityStep 0) - 1/2)) ≤ 0 := by linarith
  have hA2lb : (5/100:ℝ)
      ≤ Real.exp (-(17/10 * (abilityStep (abilityStep 0) - 1/2))) := by
    have h := Real.exp_le_exp.mpr harg2lb
    linarith [hexpneg24]
  have hA2ub : Real.exp (-(17/10 * (abilityStep (abilityStep 0) - 1/2))) ≤ 1 := by
    have h := Real.exp_le_exp.mpr harg2ub
    rwa [Real.exp_zero] at h
  have h3eq : abilityStep (abilityStep (abilityStep 0))
      = abilityStep (abilityStep 0)
        + (1 + Real.exp (-(17/10 * (abilityStep (abilityStep 0) - 1/2)))) / (289/100) := by
    refine abilityStep_eq (abilityStep (abilityStep 0)) (by linarith) (by linarith)
      (by linarith) ?_
    have hi : (1 + Real.exp (-(17/10 * (abilityStep (abilityStep 0) - 1/2)))) / (289/100)
        ≤ 70/100 := by
      rw [div_le_iff (by norm_num : (0:ℝ) < 289/100)]
      linarith
    linarith
  refine ⟨?_, ?_, ?_⟩
  · rw [h1eq, zero_add]
    positivity
  · rw [h2eq]
    have hpos : 0 < (1 + Real.exp (-(17/10 * (abilityStep 0 - 1/2)))) / (289/100) := by
      positivity
    linarith
  · rw [h3eq]
    have hpos : 0
        < (1 + Real.exp (-(17/10 * (abilityStep (abilityStep 0) - 1/2)))) / (289/100) := by
      positivity
    linarith
